import Mathlib

/-!
Verification of the PLONK verifier and its polynomial algebra.

Shallow embedding of the repository's Rust sources over an arbitrary scalar
field `F` (the production binding is the BLS12-381 scalar field; every claim
below is field-generic) and arbitrary pairing groups `G`, `G₂`, `GT`
(`G1Affine`/`G1Projective` are identified, as the conversions between them
are the identity on the abstract group).

Embedded from `src/fft/polynomial.rs`: the coefficient-form `Polynomial` and
its operations.  Embedded from `src/constraint_system/standard/proof.rs`:
`Proof`, its `verify` pipeline and the commitment helpers.  Repository code
that is not under `src/` (the transcript trait, the FFT evaluation domain,
`util::multiscalar_mul`/`sum_points`, the KZG `VerifierKey`, the
`PreProcessedCircuit` accessors) is modelled from the spec; each such
definition carries a doc comment saying so.  Panics (`unwrap`) are modelled
by `Option`: `none` is an aborted computation.
-/

set_option linter.unusedVariables false

/-- Semantic bridge: the Mathlib polynomial denoted by an ascending
coefficient list (`l.get i` is the coefficient of `x^i`). -/
noncomputable def listToPoly {F : Type} [Semiring F] : List F → Polynomial F
  | [] => 0
  | c :: rest => Polynomial.C c + Polynomial.X * listToPoly rest

namespace Plonk

variable {F : Type} [Field F] [DecidableEq F]

/-- `Polynomial` (src/fft/polynomial.rs): the coefficient of `x^i` is stored
at location `i` of `coeffs`. -/
structure Polynomial (F : Type) where
  coeffs : List F
  deriving DecidableEq

/-- `Polynomial::zero`: the empty coefficient vector. -/
def Polynomial.zero (F : Type) : Polynomial F := ⟨[]⟩

/-- `Polynomial::is_zero`: empty, or every coefficient is zero. -/
def Polynomial.is_zero (p : Polynomial F) : Bool :=
  p.coeffs.isEmpty || p.coeffs.all (fun c => decide (c = 0))

/-- `Polynomial::truncate_leading_zeros`: pop trailing zero coefficients. -/
def truncate_leading_zeros (l : List F) : List F :=
  (l.reverse.dropWhile (fun c => decide (c = 0))).reverse

/-- `Polynomial::from_coefficients_vec`. -/
def Polynomial.from_coefficients_vec (coeffs : List F) : Polynomial F :=
  ⟨truncate_leading_zeros coeffs⟩

/-- `Polynomial::degree`: `len - 1` for a nonzero polynomial, `0` otherwise. -/
def Polynomial.degree (p : Polynomial F) : Nat :=
  if p.is_zero then 0 else p.coeffs.length - 1

/-- Modelled from the spec: `util::powers_of` (crate `util` is not under
src/): the first `n` powers `[1, z, z^2, ...]` of `z`, used by point
evaluation (spec section 4.1). -/
def powers_of (z : F) (n : Nat) : List F :=
  (List.range n).map (fun i => z ^ i)

/-- `Polynomial::evaluate`: `0` for the zero polynomial, otherwise the sum of
`c_i * z^i` over the precomputed powers of the point. -/
def Polynomial.evaluate (p : Polynomial F) (point : F) : F :=
  if p.is_zero then 0
  else (List.zipWith (fun c pw => pw * c) p.coeffs (powers_of point p.coeffs.length)).sum

/-- The in-place add of the source `Add` impl: the shorter vector is added
into the prefix of the (cloned) longer one. `a` is the longer vector. -/
def add_into (a b : List F) : List F :=
  List.zipWith (fun x y => x + y) a b ++ a.drop b.length

/-- `impl Add<&Polynomial> for &Polynomial`: branch on zero/degrees, add into
the longer clone, then re-canonicalise. -/
def Polynomial.add (p other : Polynomial F) : Polynomial F :=
  let result : Polynomial F :=
    if p.is_zero then other
    else if other.is_zero then p
    else if other.degree ≤ p.degree then ⟨add_into p.coeffs other.coeffs⟩
    else ⟨add_into other.coeffs p.coeffs⟩
  ⟨truncate_leading_zeros result.coeffs⟩

/-- `impl Sub<&Polynomial> for &Polynomial`: branch on zero/degrees (a zero
left operand yields the negated right operand; a shorter left operand is
resized with zeros), then re-canonicalise. -/
def Polynomial.sub (p other : Polynomial F) : Polynomial F :=
  let result : Polynomial F :=
    if p.is_zero then ⟨other.coeffs.map (fun c => -c)⟩
    else if other.is_zero then p
    else if other.degree ≤ p.degree then
      ⟨List.zipWith (fun x y => x - y) p.coeffs other.coeffs ++ p.coeffs.drop other.coeffs.length⟩
    else
      ⟨List.zipWith (fun x y => x - y)
        (p.coeffs ++ List.replicate (other.coeffs.length - p.coeffs.length) 0) other.coeffs⟩
  ⟨truncate_leading_zeros result.coeffs⟩

/-- `impl Neg for Polynomial`: coefficientwise negation, no truncation. -/
def Polynomial.neg (p : Polynomial F) : Polynomial F :=
  ⟨p.coeffs.map (fun c => -c)⟩

/-- Coefficient convolution of two nonempty coefficient vectors. -/
def mul_coeffs (a b : List F) : List F :=
  (List.range (a.length + b.length - 1)).map (fun i =>
    ((List.range (i + 1)).map (fun j => a.getD j 0 * b.getD (i - j) 0)).sum)

/-- Modelled from the spec: `impl Mul<&Polynomial> for &Polynomial` is
FFT-based (the FFT domain lives in crate `fft`, not under src/); per spec
section 4.1 the domain has size at least `len a + len b`, so the pointwise
product interpolates back to the coefficient convolution, canonicalised by
the `from_coefficients_vec` inside `Evaluations::interpolate`. -/
def Polynomial.mul (p other : Polynomial F) : Polynomial F :=
  if p.is_zero || other.is_zero then Polynomial.zero F
  else Polynomial.from_coefficients_vec (mul_coeffs p.coeffs other.coeffs)

/-- `impl Mul<&Scalar> for &Polynomial`: zero inputs give the zero
polynomial, otherwise every coefficient is multiplied by the constant. -/
def Polynomial.scalar_mul (p : Polynomial F) (constant : F) : Polynomial F :=
  if p.is_zero || decide (constant = 0) then Polynomial.zero F
  else Polynomial.from_coefficients_vec (p.coeffs.map (fun c => c * constant))

/-- `impl Add<&Scalar> for &Polynomial`: `result[0] += constant` on a clone,
with no re-canonicalisation. -/
def Polynomial.scalar_add (p : Polynomial F) (constant : F) : Polynomial F :=
  if p.is_zero then Polynomial.from_coefficients_vec [constant]
  else if decide (constant = 0) then p
  else ⟨p.coeffs.set 0 (p.coeffs.headD 0 + constant)⟩

/-- `impl Sub<&Scalar> for &Polynomial`: adds the negated constant. -/
def Polynomial.scalar_sub (p : Polynomial F) (constant : F) : Polynomial F :=
  p.scalar_add (-constant)

/-- `Polynomial::ruffini`: walk the coefficients from the leading one down,
emitting `t = c + k` and updating `k := z * t`; the last emitted value is the
remainder and is popped off. -/
def Polynomial.ruffini (p : Polynomial F) (z : F) : Polynomial F :=
  let step : List F × F → F → List F × F := fun acc coeff =>
    let t := coeff + acc.2
    (acc.1 ++ [t], z * t)
  let quotient := (p.coeffs.reverse.foldl step ([], 0)).1
  Polynomial.from_coefficients_vec quotient.dropLast.reverse

/-- The `ruffini` fold written as structural recursion: processing the
reversed (leading-coefficient-first) coefficients with accumulator `k`, the
list of emitted `t` values in emission order. -/
def ruffiniGo (z : F) : List F → F → List F
  | [], _ => []
  | c :: rest, k => (c + k) :: ruffiniGo z rest (z * (c + k))

/-- Canonical form (spec section 3): empty, or the last coefficient is
nonzero. -/
def canonicalB (l : List F) : Bool :=
  match l.getLast? with
  | none => true
  | some c => decide (c ≠ 0)

variable {G G₂ GT σ : Type} [AddCommGroup G] [Module F G] [DecidableEq GT]

/-- Models `bls12_381::Scalar::invert`: `CtOption` that is none exactly at
zero; `unwrap` of the none case is a panic. -/
def invert (x : F) : Option F :=
  if x = 0 then none else some x⁻¹

/-- `permutation::constants::K1 = 7`. -/
def K1 : F := 7

/-- `permutation::constants::K2 = 13`. -/
def K2 : F := 13

/-- `permutation::constants::K3 = 17` (declared by the source, unused by the
verifier path). -/
def K3 : F := 17

/-- `ProofEvaluations` (linearisation_poly.rs is not under src/; the seven
fields are those of spec section 3 and of `Proof::empty`). -/
structure ProofEvaluations (F : Type) where
  a_eval : F
  b_eval : F
  c_eval : F
  left_sigma_eval : F
  right_sigma_eval : F
  perm_eval : F
  lin_poly_eval : F
  deriving DecidableEq

/-- `Proof` (src/constraint_system/standard/proof.rs): nine commitments plus
the evaluations.  A `Commitment` is a G1 point; the newtype wrapper is
dropped. -/
structure Proof (F G : Type) where
  a_comm : G
  b_comm : G
  c_comm : G
  z_comm : G
  t_lo_comm : G
  t_mid_comm : G
  t_hi_comm : G
  w_z_comm : G
  w_zw_comm : G
  evaluations : ProofEvaluations F
  deriving DecidableEq

/-- `Proof::empty`: identity commitments and zero evaluations. -/
def Proof.empty : Proof F G :=
  ⟨0, 0, 0, 0, 0, 0, 0, 0, 0, ⟨0, 0, 0, 0, 0, 0, 0⟩⟩

/-- Modelled from the spec (section 3): `PreProcessedCircuit`
(preprocessed_circuit.rs is not under src/) — the size `n`, the five selector
commitments and the three permutation commitments, through the accessors
`verify` uses. -/
structure PreProcessedCircuit (F G : Type) where
  n : Nat
  qm_comm : G
  ql_comm : G
  qr_comm : G
  qo_comm : G
  qc_comm : G
  left_sigma_comm : G
  right_sigma_comm : G
  out_sigma_comm : G

/-- Modelled from the spec (section 3): the KZG10 `VerifierKey`
(commitment_scheme is not under src/): `g ∈ G1`, `h ∈ G2`, `beta_h = β·h`. -/
structure VerifierKey (G G₂ : Type) where
  g : G
  h : G₂
  beta_h : G₂

/-- Modelled from the spec (section 6): the `EvaluationDomain` contract
(crate `fft` is not under src/): size, generator `ω`, the Lagrange-vector
evaluator and `ifft` as opaque total functions. -/
structure EvaluationDomain (F : Type) where
  size : Nat
  group_gen : F
  evaluate_all_lagrange_coefficients : F → List F
  ifft : List F → List F

/-- Modelled from the spec (section 6): `evaluate_vanishing_polynomial(z) =
z^n − 1`. -/
def EvaluationDomain.evaluate_vanishing_polynomial (d : EvaluationDomain F) (z : F) : F :=
  z ^ d.size - 1

/-- Modelled from the spec (sections 4.2.2 and 7): a circuit size is
supported when it is a power of two within the scalar field's 2-adicity
(32 for BLS12-381). -/
def supported_circuit_size (n : Nat) : Bool :=
  (List.range 33).any (fun k => decide (n = 2 ^ k))

/-- Modelled from the spec: `EvaluationDomain::new` fails with
`InvalidCircuitSize` when the requested size is not a supported power of
two; `mk` supplies the domain data (generator, Lagrange evaluator, ifft) for
a supported size. -/
def EvaluationDomain.new_checked (mk : Nat → EvaluationDomain F) (n : Nat) :
    Option (EvaluationDomain F) :=
  if supported_circuit_size n then some (mk n) else none

/-- Modelled from the spec (section 6): the `TranscriptProtocol` contract
(crate `transcript` is not under src/), as explicit state-passing over a
state type `σ`; `challenge_scalar` is a deterministic function of the state. -/
structure TranscriptOps (σ F G : Type) where
  append_commitment : String → G → σ → σ
  append_scalar : String → F → σ → σ
  challenge_scalar : String → σ → F × σ

/-- Modelled from the spec (section 4.3): `util::multiscalar_mul`
(crate `util` is not under src/) scalar-multiplies each (scalar, point)
pair. -/
def multiscalar_mul (scalars : List F) (points : List G) : List G :=
  List.zipWith (fun s p => s • p) scalars points

/-- Modelled from the spec (section 4.3): `util::sum_points` accumulates the
projective sum. -/
def sum_points (points : List G) : G :=
  points.foldl (fun acc p => acc + p) 0

/-- `Proof::compute_quotient_evaluation`: the `unwrap` of
`z_h_eval.invert()` is modelled by `Option`. -/
def Proof.compute_quotient_evaluation (proof : Proof F G)
    (pi_eval alpha beta gamma l1_eval z_h_eval z_hat_eval : F) : Option F :=
  let alpha_sq := alpha * alpha
  let alpha_cu := alpha_sq * alpha
  let a := proof.evaluations.lin_poly_eval + pi_eval * alpha
  let beta_sig1 := beta * proof.evaluations.left_sigma_eval
  let b_0 := proof.evaluations.a_eval + beta_sig1 + gamma
  let beta_sig2 := beta * proof.evaluations.right_sigma_eval
  let b_1 := proof.evaluations.b_eval + beta_sig2 + gamma
  let b_2 := (proof.evaluations.c_eval + gamma) * z_hat_eval * alpha_sq
  let b := b_0 * b_1 * b_2
  let c := l1_eval * alpha_cu
  (invert z_h_eval).map (fun zinv => (a - b - c) * zinv)

/-- `Proof::compute_partial_opening_commitment`: the seven (scalar, point)
pushes, in source order, fed to the multi-scalar multiplication. -/
def Proof.compute_partial_opening_commitment (proof : Proof F G)
    (alpha beta gamma z_challenge u v l1_eval : F)
    (preprocessed_circuit : PreProcessedCircuit F G) : G :=
  let x :=
    let beta_z := beta * z_challenge
    let q_0 := proof.evaluations.a_eval + beta_z + gamma
    let beta_k1_z := beta * K1 * z_challenge
    let q_1 := proof.evaluations.b_eval + beta_k1_z + gamma
    let beta_k2_z := beta * K2 * z_challenge
    let q_2 := (proof.evaluations.c_eval + beta_k2_z + gamma) * alpha * alpha * v
    q_0 * q_1 * q_2
  let r := l1_eval * alpha ^ 3 * v
  let s := v ^ 7 * u
  let y :=
    let beta_sigma_1 := beta * proof.evaluations.left_sigma_eval
    let q_0 := proof.evaluations.a_eval + beta_sigma_1 + gamma
    let beta_sigma_2 := beta * proof.evaluations.right_sigma_eval
    let q_1 := proof.evaluations.b_eval + beta_sigma_2 + gamma
    let q_2 := beta * proof.evaluations.perm_eval * alpha * alpha * v
    q_0 * q_1 * q_2
  let scalars : List F :=
    [proof.evaluations.a_eval * proof.evaluations.b_eval * alpha * v,
     proof.evaluations.a_eval * alpha * v,
     proof.evaluations.b_eval * alpha * v,
     proof.evaluations.c_eval * alpha * v,
     alpha * v,
     x + r + s,
     -y]
  let points : List G :=
    [preprocessed_circuit.qm_comm, preprocessed_circuit.ql_comm,
     preprocessed_circuit.qr_comm, preprocessed_circuit.qo_comm,
     preprocessed_circuit.qc_comm, proof.z_comm,
     preprocessed_circuit.out_sigma_comm]
  sum_points (multiscalar_mul scalars points)

/-- `Proof::compute_batch_opening_commitment`: the nine (scalar, point)
pushes, in source order (`n` is the preprocessed circuit's size). -/
def Proof.compute_batch_opening_commitment (proof : Proof F G)
    (z_challenge v : F) (d_comm : G)
    (preprocessed_circuit : PreProcessedCircuit F G) : G :=
  let n := preprocessed_circuit.n
  let z_n := z_challenge ^ n
  let z_two_n := z_challenge ^ (2 * n)
  let scalars : List F := [1, z_n, z_two_n, 1, v ^ 2, v ^ 3, v ^ 4, v ^ 5, v ^ 6]
  let points : List G :=
    [proof.t_lo_comm, proof.t_mid_comm, proof.t_hi_comm, d_comm, proof.a_comm,
     proof.b_comm, proof.c_comm, preprocessed_circuit.left_sigma_comm,
     preprocessed_circuit.right_sigma_comm]
  sum_points (multiscalar_mul scalars points)

/-- `Proof::compute_batch_evaluation_commitment`: the eight weighted
evaluations summed and multiplied onto `vk.g`. -/
def Proof.compute_batch_evaluation_commitment (proof : Proof F G)
    (u v t_eval : F) (vk : VerifierKey G G₂) : G :=
  let x : List (F × F) :=
    [(1, t_eval), (v, proof.evaluations.lin_poly_eval),
     (v ^ 2, proof.evaluations.a_eval), (v ^ 3, proof.evaluations.b_eval),
     (v ^ 4, proof.evaluations.c_eval), (v ^ 5, proof.evaluations.left_sigma_eval),
     (v ^ 6, proof.evaluations.right_sigma_eval), (v ^ 7, u * proof.evaluations.perm_eval)]
  let result := x.foldl (fun acc ij => acc + ij.1 * ij.2) 0
  result • vk.g

/-- `Proof::verify`.  Extra parameters against the source: `e` is the
bilinear pairing of the external curve crate, `new_domain` the external
`EvaluationDomain::new`, `ops`/`s` the transcript implementation and its
incoming state.  `none` models a panic (`unwrap` of a failed domain
construction or of a zero inversion); otherwise the boolean result and the
final transcript state are returned. -/
def Proof.verify (e : G → G₂ → GT) (new_domain : Nat → Option (EvaluationDomain F))
    (ops : TranscriptOps σ F G) (proof : Proof F G)
    (preprocessed_circuit : PreProcessedCircuit F G)
    (verifier_key : VerifierKey G G₂) (pub_inputs : List F) (s : σ) :
    Option (Bool × σ) :=
  match new_domain preprocessed_circuit.n with
  | none => none
  | some domain =>
    let s1 := ops.append_commitment "w_l" proof.a_comm s
    let s2 := ops.append_commitment "w_r" proof.b_comm s1
    let s3 := ops.append_commitment "w_o" proof.c_comm s2
    let beta_draw := ops.challenge_scalar "beta" s3
    let beta := beta_draw.1
    let s4 := ops.append_scalar "beta" beta beta_draw.2
    let gamma_draw := ops.challenge_scalar "gamma" s4
    let gamma := gamma_draw.1
    let s5 := ops.append_commitment "z" proof.z_comm gamma_draw.2
    let alpha_draw := ops.challenge_scalar "alpha" s5
    let alpha := alpha_draw.1
    let s6 := ops.append_commitment "t_lo" proof.t_lo_comm alpha_draw.2
    let s7 := ops.append_commitment "t_mid" proof.t_mid_comm s6
    let s8 := ops.append_commitment "t_hi" proof.t_hi_comm s7
    let z_draw := ops.challenge_scalar "z" s8
    let z_challenge := z_draw.1
    let s9 := z_draw.2
    let z_h_eval := domain.evaluate_vanishing_polynomial z_challenge
    match (domain.evaluate_all_lagrange_coefficients z_challenge).head? with
    | none => none
    | some l1_eval =>
      let pi_poly := Polynomial.from_coefficients_vec (domain.ifft pub_inputs)
      let pi_eval := pi_poly.evaluate z_challenge
      match proof.compute_quotient_evaluation pi_eval alpha beta gamma l1_eval
          z_h_eval proof.evaluations.perm_eval with
      | none => none
      | some t_eval =>
        let s10 := ops.append_scalar "a_eval" proof.evaluations.a_eval s9
        let s11 := ops.append_scalar "b_eval" proof.evaluations.b_eval s10
        let s12 := ops.append_scalar "c_eval" proof.evaluations.c_eval s11
        let s13 := ops.append_scalar "left_sig_eval" proof.evaluations.left_sigma_eval s12
        let s14 := ops.append_scalar "right_sig_eval" proof.evaluations.right_sigma_eval s13
        let s15 := ops.append_scalar "perm_eval" proof.evaluations.perm_eval s14
        let s16 := ops.append_scalar "t_eval" t_eval s15
        let s17 := ops.append_scalar "r_eval" proof.evaluations.lin_poly_eval s16
        let v_draw := ops.challenge_scalar "v" s17
        let v := v_draw.1
        let s18 := ops.append_commitment "w_z" proof.w_z_comm v_draw.2
        let s19 := ops.append_commitment "w_z_w" proof.w_zw_comm s18
        let u_draw := ops.challenge_scalar "u" s19
        let u := u_draw.1
        let s20 := u_draw.2
        let d_comm := proof.compute_partial_opening_commitment alpha beta gamma
          z_challenge u v l1_eval preprocessed_circuit
        let f_comm := proof.compute_batch_opening_commitment z_challenge v d_comm
          preprocessed_circuit
        let e_comm := proof.compute_batch_evaluation_commitment u v t_eval verifier_key
        let lhs := e (proof.w_z_comm + u • proof.w_zw_comm) verifier_key.beta_h
        let inner :=
          let k_0 := z_challenge • proof.w_z_comm
          let u_z_root := u * z_challenge * domain.group_gen
          let k_1 := u_z_root • proof.w_zw_comm
          k_0 + k_1 + f_comm - e_comm
        let rhs := e inner verifier_key.h
        some (decide (lhs = rhs), s20)

/-- The four challenges of spec section 4.2.1, steps 1 to 5, together with
the transcript state after step 5. -/
structure PreludeChallenges (σ F : Type) where
  beta : F
  gamma : F
  alpha : F
  z_challenge : F
  state : σ
  deriving DecidableEq

/-- Spec section 4.2.1, steps 1 to 5: the transcript replay up to the
evaluation challenge `z`, restated outside `verify` so that hypotheses about
mid-protocol values (the vanishing evaluation at the drawn `z_challenge`)
can be stated. -/
def verifyPrelude (ops : TranscriptOps σ F G) (proof : Proof F G) (s : σ) :
    PreludeChallenges σ F :=
  let s1 := ops.append_commitment "w_l" proof.a_comm s
  let s2 := ops.append_commitment "w_r" proof.b_comm s1
  let s3 := ops.append_commitment "w_o" proof.c_comm s2
  let beta_draw := ops.challenge_scalar "beta" s3
  let beta := beta_draw.1
  let s4 := ops.append_scalar "beta" beta beta_draw.2
  let gamma_draw := ops.challenge_scalar "gamma" s4
  let gamma := gamma_draw.1
  let s5 := ops.append_commitment "z" proof.z_comm gamma_draw.2
  let alpha_draw := ops.challenge_scalar "alpha" s5
  let alpha := alpha_draw.1
  let s6 := ops.append_commitment "t_lo" proof.t_lo_comm alpha_draw.2
  let s7 := ops.append_commitment "t_mid" proof.t_mid_comm s6
  let s8 := ops.append_commitment "t_hi" proof.t_hi_comm s7
  let z_draw := ops.challenge_scalar "z" s8
  ⟨beta, gamma, alpha, z_draw.1, z_draw.2⟩

/-- Spec section 4.2.1, steps 6 to 8: the transcript replay from after the
`z` draw, given the derived `t_eval`: the eight evaluation appends, the `v`
draw, the two opening-commitment appends and the `u` draw; returns
`(v, u, final state)`. -/
def verifyEpilogue (ops : TranscriptOps σ F G) (proof : Proof F G) (t_eval : F) (s : σ) :
    F × F × σ :=
  let s10 := ops.append_scalar "a_eval" proof.evaluations.a_eval s
  let s11 := ops.append_scalar "b_eval" proof.evaluations.b_eval s10
  let s12 := ops.append_scalar "c_eval" proof.evaluations.c_eval s11
  let s13 := ops.append_scalar "left_sig_eval" proof.evaluations.left_sigma_eval s12
  let s14 := ops.append_scalar "right_sig_eval" proof.evaluations.right_sigma_eval s13
  let s15 := ops.append_scalar "perm_eval" proof.evaluations.perm_eval s14
  let s16 := ops.append_scalar "t_eval" t_eval s15
  let s17 := ops.append_scalar "r_eval" proof.evaluations.lin_poly_eval s16
  let v_draw := ops.challenge_scalar "v" s17
  let s18 := ops.append_commitment "w_z" proof.w_z_comm v_draw.2
  let s19 := ops.append_commitment "w_z_w" proof.w_zw_comm s18
  let u_draw := ops.challenge_scalar "u" s19
  (v_draw.1, u_draw.1, u_draw.2)

/-- Spec section 4.2.4: the partial-opening commitment `D` as the
seven-term table, written exactly in the spec's groupings. -/
def spec_D (ev : ProofEvaluations F) (z_comm : G)
    (pc : PreProcessedCircuit F G) (alpha beta gamma z_challenge u v l1_eval : F) : G :=
  (ev.a_eval * ev.b_eval * alpha * v) • pc.qm_comm
    + (ev.a_eval * alpha * v) • pc.ql_comm
    + (ev.b_eval * alpha * v) • pc.qr_comm
    + (ev.c_eval * alpha * v) • pc.qo_comm
    + (alpha * v) • pc.qc_comm
    + ((ev.a_eval + beta * z_challenge + gamma)
        * (ev.b_eval + beta * K1 * z_challenge + gamma)
        * (ev.c_eval + beta * K2 * z_challenge + gamma) * alpha ^ 2 * v
       + l1_eval * alpha ^ 3 * v
       + v ^ 7 * u) • z_comm
    + (-((ev.a_eval + beta * ev.left_sigma_eval + gamma)
        * (ev.b_eval + beta * ev.right_sigma_eval + gamma)
        * (beta * ev.perm_eval * alpha ^ 2 * v))) • pc.out_sigma_comm

/-- Spec section 4.2.5: the batch-opening commitment `F` as the nine-term
table over the partial-opening commitment `d`. -/
def spec_F (proof : Proof F G) (pc : PreProcessedCircuit F G) (d : G)
    (z_challenge v : F) (n : Nat) : G :=
  (1 : F) • proof.t_lo_comm
    + (z_challenge ^ n) • proof.t_mid_comm
    + (z_challenge ^ (2 * n)) • proof.t_hi_comm
    + (1 : F) • d
    + (v ^ 2) • proof.a_comm
    + (v ^ 3) • proof.b_comm
    + (v ^ 4) • proof.c_comm
    + (v ^ 5) • pc.left_sigma_comm
    + (v ^ 6) • pc.right_sigma_comm

/-- Spec section 4.2.6: the batch-evaluation commitment
`E = g · Σ sᵢ·eᵢ`. -/
def spec_E (g : G) (ev : ProofEvaluations F) (u v t_eval : F) : G :=
  ((1 : F) * t_eval + v * ev.lin_poly_eval + v ^ 2 * ev.a_eval
    + v ^ 3 * ev.b_eval + v ^ 4 * ev.c_eval + v ^ 5 * ev.left_sigma_eval
    + v ^ 6 * ev.right_sigma_eval + v ^ 7 * (u * ev.perm_eval)) • g

/-- A transcript event: the observable effect of one transcript
operation. -/
inductive TEvent (F G : Type) where
  | comm (label : String) (c : G)
  | scalar (label : String) (x : F)
  | chal (label : String)
  deriving DecidableEq

/-- The free (recording) transcript over an arbitrary challenge function of
the trace: every operation appends its event; any deterministic transcript
implementation factors through it. -/
def recordOps (chalF : List (TEvent F G) → F) :
    TranscriptOps (List (TEvent F G)) F G where
  append_commitment := fun label c s => s ++ [TEvent.comm label c]
  append_scalar := fun label x s => s ++ [TEvent.scalar label x]
  challenge_scalar := fun label s =>
    (chalF (s ++ [TEvent.chal label]), s ++ [TEvent.chal label])

/-- A stateless transcript whose every challenge is the constant `x`; used
by concrete counterexamples and witnesses. -/
def constOps (x : F) : TranscriptOps Unit F G :=
  ⟨fun _ _ _ => (), fun _ _ _ => (), fun _ _ => (x, ())⟩

/-- A concrete size-`1` evaluation domain for counterexamples and
witnesses. -/
def trivialDomain : EvaluationDomain F :=
  ⟨1, 1, fun _ => [0], fun l => l⟩

/-- A preprocessed circuit of size `n` whose commitments are all the
identity; used by concrete counterexamples and witnesses. -/
def trivialPC (n : Nat) : PreProcessedCircuit F G :=
  ⟨n, 0, 0, 0, 0, 0, 0, 0, 0⟩

end Plonk

section Theorems

set_option linter.unusedSectionVars false

variable {F : Type} [Field F] [DecidableEq F]
variable {G G₂ GT σ : Type} [AddCommGroup G] [Module F G] [DecidableEq GT]

/-- A seven-term multi-scalar multiplication unfolds to the explicit sum. -/
theorem msm_seven (s1 s2 s3 s4 s5 s6 s7 : F) (p1 p2 p3 p4 p5 p6 p7 : G) :
    Plonk.sum_points (Plonk.multiscalar_mul [s1, s2, s3, s4, s5, s6, s7]
        [p1, p2, p3, p4, p5, p6, p7]) =
      s1 • p1 + s2 • p2 + s3 • p3 + s4 • p4 + s5 • p5 + s6 • p6 + s7 • p7 := by
  simp [Plonk.multiscalar_mul, Plonk.sum_points]

/-- A nine-term multi-scalar multiplication unfolds to the explicit sum. -/
theorem msm_nine (s1 s2 s3 s4 s5 s6 s7 s8 s9 : F) (p1 p2 p3 p4 p5 p6 p7 p8 p9 : G) :
    Plonk.sum_points (Plonk.multiscalar_mul [s1, s2, s3, s4, s5, s6, s7, s8, s9]
        [p1, p2, p3, p4, p5, p6, p7, p8, p9]) =
      s1 • p1 + s2 • p2 + s3 • p3 + s4 • p4 + s5 • p5 + s6 • p6 + s7 • p7
        + s8 • p8 + s9 • p9 := by
  simp [Plonk.multiscalar_mul, Plonk.sum_points]

/-- C2: for every proof, challenges `α`, `β`, `γ` and scalars `pi_eval`,
`l1_eval`, `z_h_eval ≠ 0`, the verifier's quotient evaluation equals
`(a − b − c)·(z_h_eval)⁻¹` with `a = lin_poly_eval + α·pi_eval`,
`b = (a_eval + β·left_sigma_eval + γ)·(b_eval + β·right_sigma_eval + γ)·
((c_eval + γ)·perm_eval·α²)` and `c = l1_eval·α³`. -/
theorem c2_quotient_evaluation (proof : Plonk.Proof F G)
    (pi_eval alpha beta gamma l1_eval z_h_eval : F) (hz : z_h_eval ≠ 0) :
    proof.compute_quotient_evaluation pi_eval alpha beta gamma l1_eval z_h_eval
        proof.evaluations.perm_eval =
      some (((proof.evaluations.lin_poly_eval + alpha * pi_eval)
        - ((proof.evaluations.a_eval + beta * proof.evaluations.left_sigma_eval + gamma)
            * (proof.evaluations.b_eval + beta * proof.evaluations.right_sigma_eval + gamma)
            * ((proof.evaluations.c_eval + gamma) * proof.evaluations.perm_eval * alpha ^ 2))
        - l1_eval * alpha ^ 3) * z_h_eval⁻¹) := by
  unfold Plonk.Proof.compute_quotient_evaluation Plonk.invert
  rw [if_neg hz]
  simp only [Option.map_some']
  congr 1
  ring

/-- Witness for C2 at the empty proof over `ZMod 3` with `z_h_eval = 1`. -/
theorem c2_quotient_evaluation_witness :
    ((1 : ZMod 3) ≠ 0) ∧
    (Plonk.Proof.empty : Plonk.Proof (ZMod 3) (ZMod 3)).compute_quotient_evaluation
        0 0 0 0 0 1 (Plonk.Proof.empty : Plonk.Proof (ZMod 3) (ZMod 3)).evaluations.perm_eval =
      some ((((0 : ZMod 3) + 0 * 0) - ((0 + 0 * 0 + 0) * (0 + 0 * 0 + 0)
        * ((0 + 0) * 0 * 0 ^ 2)) - 0 * 0 ^ 3) * 1⁻¹) :=
  ⟨by decide,
    c2_quotient_evaluation (Plonk.Proof.empty : Plonk.Proof (ZMod 3) (ZMod 3))
      0 0 0 0 0 1 (by decide)⟩

/-- The source partial-opening commitment equals the spec's seven-term
table. -/
theorem partial_opening_eq_spec_D (proof : Plonk.Proof F G)
    (pc : Plonk.PreProcessedCircuit F G) (alpha beta gamma z_challenge u v l1_eval : F) :
    proof.compute_partial_opening_commitment alpha beta gamma z_challenge u v l1_eval pc =
      Plonk.spec_D proof.evaluations proof.z_comm pc alpha beta gamma z_challenge u v l1_eval := by
  simp only [Plonk.Proof.compute_partial_opening_commitment, Plonk.spec_D, msm_seven]
  match_scalars <;> ring

/-- The source batch-opening commitment equals the spec's nine-term table. -/
theorem batch_opening_eq_spec_F (proof : Plonk.Proof F G)
    (pc : Plonk.PreProcessedCircuit F G) (z_challenge v : F) (d : G) :
    proof.compute_batch_opening_commitment z_challenge v d pc =
      Plonk.spec_F proof pc d z_challenge v pc.n := by
  simp only [Plonk.Proof.compute_batch_opening_commitment, Plonk.spec_F, msm_nine]

/-- The source batch-evaluation commitment equals the spec's weighted-sum
form. -/
theorem batch_evaluation_eq_spec_E (proof : Plonk.Proof F G) (u v t_eval : F)
    (vk : Plonk.VerifierKey G G₂) :
    proof.compute_batch_evaluation_commitment u v t_eval vk =
      Plonk.spec_E vk.g proof.evaluations u v t_eval := by
  simp [Plonk.Proof.compute_batch_evaluation_commitment, Plonk.spec_E]

/-- C3: the partial-opening commitment `D` equals the multi-scalar
multiplication of exactly the seven (point, scalar) pairs of spec section
4.2.4, with the `z_comm` scalar `X + R + S` and the `σ_O` scalar `−Y`. -/
theorem c3_partial_opening_commitment (proof : Plonk.Proof F G)
    (pc : Plonk.PreProcessedCircuit F G) (alpha beta gamma z_challenge u v l1_eval : F) :
    proof.compute_partial_opening_commitment alpha beta gamma z_challenge u v l1_eval pc =
      Plonk.spec_D proof.evaluations proof.z_comm pc alpha beta gamma z_challenge u v l1_eval :=
  partial_opening_eq_spec_D proof pc alpha beta gamma z_challenge u v l1_eval

/-- C1: whenever the preceding algebra succeeds (the domain is constructed,
the Lagrange vector is nonempty and the vanishing evaluation is invertible,
so that a `t_eval` is produced), `verify` returns `true` if and only if the
pairing equality of spec section 4.2.7 holds:
`e(w_z_comm + u·w_zw_comm, β·h) = e(z_challenge·w_z_comm +
(u·z_challenge·ω)·w_zw_comm + F − E, h)`, where `F` is the batch-opening
commitment of section 4.2.5 built over the partial-opening commitment `D` of
section 4.2.4, and `E` the batch-evaluation commitment of section 4.2.6 —
the returned boolean is the decision of exactly that equality, and the
transcript ends in the replayed final state. -/
theorem c1_verify_pairing_equality (e : G → G₂ → GT)
    (new_domain : Nat → Option (Plonk.EvaluationDomain F))
    (ops : Plonk.TranscriptOps σ F G) (proof : Plonk.Proof F G)
    (pc : Plonk.PreProcessedCircuit F G) (vk : Plonk.VerifierKey G G₂)
    (pub_inputs : List F) (s0 : σ) (domain : Plonk.EvaluationDomain F)
    (hd : new_domain pc.n = some domain) (l1_eval t_eval : F)
    (hl1 : (domain.evaluate_all_lagrange_coefficients
        (Plonk.verifyPrelude ops proof s0).z_challenge).head? = some l1_eval)
    (ht : proof.compute_quotient_evaluation
        ((Plonk.Polynomial.from_coefficients_vec (domain.ifft pub_inputs)).evaluate
          (Plonk.verifyPrelude ops proof s0).z_challenge)
        (Plonk.verifyPrelude ops proof s0).alpha
        (Plonk.verifyPrelude ops proof s0).beta
        (Plonk.verifyPrelude ops proof s0).gamma
        l1_eval
        (domain.evaluate_vanishing_polynomial
          (Plonk.verifyPrelude ops proof s0).z_challenge)
        proof.evaluations.perm_eval = some t_eval) :
    Plonk.Proof.verify e new_domain ops proof pc vk pub_inputs s0 =
      some
        (decide
          (e (proof.w_z_comm
              + (Plonk.verifyEpilogue ops proof t_eval
                  (Plonk.verifyPrelude ops proof s0).state).2.1 • proof.w_zw_comm)
            vk.beta_h
          = e ((Plonk.verifyPrelude ops proof s0).z_challenge • proof.w_z_comm
              + ((Plonk.verifyEpilogue ops proof t_eval
                    (Plonk.verifyPrelude ops proof s0).state).2.1
                  * (Plonk.verifyPrelude ops proof s0).z_challenge
                  * domain.group_gen) • proof.w_zw_comm
              + Plonk.spec_F proof pc
                  (Plonk.spec_D proof.evaluations proof.z_comm pc
                    (Plonk.verifyPrelude ops proof s0).alpha
                    (Plonk.verifyPrelude ops proof s0).beta
                    (Plonk.verifyPrelude ops proof s0).gamma
                    (Plonk.verifyPrelude ops proof s0).z_challenge
                    (Plonk.verifyEpilogue ops proof t_eval
                      (Plonk.verifyPrelude ops proof s0).state).2.1
                    (Plonk.verifyEpilogue ops proof t_eval
                      (Plonk.verifyPrelude ops proof s0).state).1
                    l1_eval)
                  (Plonk.verifyPrelude ops proof s0).z_challenge
                  (Plonk.verifyEpilogue ops proof t_eval
                    (Plonk.verifyPrelude ops proof s0).state).1
                  pc.n
              - Plonk.spec_E vk.g proof.evaluations
                  (Plonk.verifyEpilogue ops proof t_eval
                    (Plonk.verifyPrelude ops proof s0).state).2.1
                  (Plonk.verifyEpilogue ops proof t_eval
                    (Plonk.verifyPrelude ops proof s0).state).1
                  t_eval)
            vk.h),
        (Plonk.verifyEpilogue ops proof t_eval
          (Plonk.verifyPrelude ops proof s0).state).2.2) := by
  simp only [Plonk.verifyPrelude] at hl1 ht
  simp only [Plonk.verifyPrelude, Plonk.verifyEpilogue]
  simp only [Plonk.Proof.verify, hd, hl1, ht]
  simp only [partial_opening_eq_spec_D, batch_opening_eq_spec_F, batch_evaluation_eq_spec_E]

/-- Witness for C1 at a concrete instantiation over `ZMod 3` (constant
challenge `2`, circuit size 1, empty proof, trivial verifier key). -/
theorem c1_verify_pairing_equality_witness :
    ((((fun _ => some Plonk.trivialDomain) :
          Nat → Option (Plonk.EvaluationDomain (ZMod 3)))
        (Plonk.trivialPC (F := ZMod 3) (G := ZMod 3) 1).n = some Plonk.trivialDomain)
      ∧ ((Plonk.trivialDomain.evaluate_all_lagrange_coefficients
          (Plonk.verifyPrelude (Plonk.constOps (2 : ZMod 3))
            (Plonk.Proof.empty : Plonk.Proof (ZMod 3) (ZMod 3)) ()).z_challenge).head?
        = some 0))
    ∧ Plonk.Proof.verify ((fun a b => a * b) : ZMod 3 → ZMod 3 → ZMod 3)
        ((fun _ => some Plonk.trivialDomain) :
          Nat → Option (Plonk.EvaluationDomain (ZMod 3)))
        (Plonk.constOps 2) (Plonk.Proof.empty : Plonk.Proof (ZMod 3) (ZMod 3))
        (Plonk.trivialPC 1) ⟨1, 1, 1⟩ [] () =
      some
        (decide
          ((fun a b => a * b)
            ((Plonk.Proof.empty : Plonk.Proof (ZMod 3) (ZMod 3)).w_z_comm
              + (Plonk.verifyEpilogue (Plonk.constOps 2) (Plonk.Proof.empty : Plonk.Proof (ZMod 3) (ZMod 3))
                  (0 * (1 : ZMod 3)⁻¹)
                  (Plonk.verifyPrelude (Plonk.constOps 2)
                    (Plonk.Proof.empty : Plonk.Proof (ZMod 3) (ZMod 3)) ()).state).2.1
                • (Plonk.Proof.empty : Plonk.Proof (ZMod 3) (ZMod 3)).w_zw_comm)
            (Plonk.VerifierKey.beta_h (⟨1, 1, 1⟩ : Plonk.VerifierKey (ZMod 3) (ZMod 3)))
          = (fun a b => a * b)
            ((Plonk.verifyPrelude (Plonk.constOps 2)
                (Plonk.Proof.empty : Plonk.Proof (ZMod 3) (ZMod 3)) ()).z_challenge
                • (Plonk.Proof.empty : Plonk.Proof (ZMod 3) (ZMod 3)).w_z_comm
              + ((Plonk.verifyEpilogue (Plonk.constOps 2) (Plonk.Proof.empty : Plonk.Proof (ZMod 3) (ZMod 3))
                    (0 * (1 : ZMod 3)⁻¹)
                    (Plonk.verifyPrelude (Plonk.constOps 2)
                      (Plonk.Proof.empty : Plonk.Proof (ZMod 3) (ZMod 3)) ()).state).2.1
                  * (Plonk.verifyPrelude (Plonk.constOps 2)
                      (Plonk.Proof.empty : Plonk.Proof (ZMod 3) (ZMod 3)) ()).z_challenge
                  * Plonk.trivialDomain.group_gen)
                  • (Plonk.Proof.empty : Plonk.Proof (ZMod 3) (ZMod 3)).w_zw_comm
              + Plonk.spec_F (Plonk.Proof.empty : Plonk.Proof (ZMod 3) (ZMod 3)) (Plonk.trivialPC 1)
                  (Plonk.spec_D (Plonk.Proof.empty : Plonk.Proof (ZMod 3) (ZMod 3)).evaluations (Plonk.Proof.empty : Plonk.Proof (ZMod 3) (ZMod 3)).z_comm
                    (Plonk.trivialPC 1)
                    (Plonk.verifyPrelude (Plonk.constOps 2)
                      (Plonk.Proof.empty : Plonk.Proof (ZMod 3) (ZMod 3)) ()).alpha
                    (Plonk.verifyPrelude (Plonk.constOps 2)
                      (Plonk.Proof.empty : Plonk.Proof (ZMod 3) (ZMod 3)) ()).beta
                    (Plonk.verifyPrelude (Plonk.constOps 2)
                      (Plonk.Proof.empty : Plonk.Proof (ZMod 3) (ZMod 3)) ()).gamma
                    (Plonk.verifyPrelude (Plonk.constOps 2)
                      (Plonk.Proof.empty : Plonk.Proof (ZMod 3) (ZMod 3)) ()).z_challenge
                    (Plonk.verifyEpilogue (Plonk.constOps 2) (Plonk.Proof.empty : Plonk.Proof (ZMod 3) (ZMod 3))
                      (0 * (1 : ZMod 3)⁻¹)
                      (Plonk.verifyPrelude (Plonk.constOps 2)
                        (Plonk.Proof.empty : Plonk.Proof (ZMod 3) (ZMod 3)) ()).state).2.1
                    (Plonk.verifyEpilogue (Plonk.constOps 2) (Plonk.Proof.empty : Plonk.Proof (ZMod 3) (ZMod 3))
                      (0 * (1 : ZMod 3)⁻¹)
                      (Plonk.verifyPrelude (Plonk.constOps 2)
                        (Plonk.Proof.empty : Plonk.Proof (ZMod 3) (ZMod 3)) ()).state).1
                    0)
                  (Plonk.verifyPrelude (Plonk.constOps 2)
                    (Plonk.Proof.empty : Plonk.Proof (ZMod 3) (ZMod 3)) ()).z_challenge
                  (Plonk.verifyEpilogue (Plonk.constOps 2) (Plonk.Proof.empty : Plonk.Proof (ZMod 3) (ZMod 3))
                    (0 * (1 : ZMod 3)⁻¹)
                    (Plonk.verifyPrelude (Plonk.constOps 2)
                      (Plonk.Proof.empty : Plonk.Proof (ZMod 3) (ZMod 3)) ()).state).1
                  (Plonk.trivialPC (F := ZMod 3) (G := ZMod 3) 1).n
              - Plonk.spec_E (Plonk.VerifierKey.g (⟨1, 1, 1⟩ : Plonk.VerifierKey (ZMod 3) (ZMod 3)))
                  (Plonk.Proof.empty : Plonk.Proof (ZMod 3) (ZMod 3)).evaluations
                  (Plonk.verifyEpilogue (Plonk.constOps 2) (Plonk.Proof.empty : Plonk.Proof (ZMod 3) (ZMod 3))
                    (0 * (1 : ZMod 3)⁻¹)
                    (Plonk.verifyPrelude (Plonk.constOps 2)
                      (Plonk.Proof.empty : Plonk.Proof (ZMod 3) (ZMod 3)) ()).state).2.1
                  (Plonk.verifyEpilogue (Plonk.constOps 2) (Plonk.Proof.empty : Plonk.Proof (ZMod 3) (ZMod 3))
                    (0 * (1 : ZMod 3)⁻¹)
                    (Plonk.verifyPrelude (Plonk.constOps 2)
                      (Plonk.Proof.empty : Plonk.Proof (ZMod 3) (ZMod 3)) ()).state).1
                  (0 * (1 : ZMod 3)⁻¹))
            (Plonk.VerifierKey.h (⟨1, 1, 1⟩ : Plonk.VerifierKey (ZMod 3) (ZMod 3)))),
        (Plonk.verifyEpilogue (Plonk.constOps 2) (Plonk.Proof.empty : Plonk.Proof (ZMod 3) (ZMod 3))
          (0 * (1 : ZMod 3)⁻¹)
          (Plonk.verifyPrelude (Plonk.constOps 2)
            (Plonk.Proof.empty : Plonk.Proof (ZMod 3) (ZMod 3)) ()).state).2.2) :=
  ⟨⟨rfl, by decide⟩,
    c1_verify_pairing_equality ((fun a b => a * b) : ZMod 3 → ZMod 3 → ZMod 3)
      (fun _ => some Plonk.trivialDomain) (Plonk.constOps 2) Plonk.Proof.empty
      (Plonk.trivialPC 1) ⟨1, 1, 1⟩ [] () Plonk.trivialDomain rfl 0
      (0 * (1 : ZMod 3)⁻¹) (by decide) rfl⟩

/-- C9: the verifier is deterministic — identical inputs and identical
initial transcript states give identical results (boolean and final
transcript state); the embedding of `verify` is a pure function of its
arguments. -/
theorem c9_verify_deterministic (e : G → G₂ → GT)
    (new_domain : Nat → Option (Plonk.EvaluationDomain F))
    (ops : Plonk.TranscriptOps σ F G) (proof : Plonk.Proof F G)
    (pc : Plonk.PreProcessedCircuit F G) (vk : Plonk.VerifierKey G G₂)
    (pub_inputs : List F) (s₁ s₂ : σ) (h : s₁ = s₂) :
    Plonk.Proof.verify e new_domain ops proof pc vk pub_inputs s₁ =
      Plonk.Proof.verify e new_domain ops proof pc vk pub_inputs s₂ := by
  rw [h]

/-- Witness for C9 at a concrete instantiation over `ZMod 3`. -/
theorem c9_verify_deterministic_witness :
    (() = ()) ∧
    Plonk.Proof.verify ((fun a b => a * b) : ZMod 3 → ZMod 3 → ZMod 3)
        (fun _ => some Plonk.trivialDomain) (Plonk.constOps 2)
        (Plonk.Proof.empty : Plonk.Proof (ZMod 3) (ZMod 3))
        (Plonk.trivialPC 1) ⟨1, 1, 1⟩ [] () =
      Plonk.Proof.verify ((fun a b => a * b) : ZMod 3 → ZMod 3 → ZMod 3)
        ((fun _ => some Plonk.trivialDomain) : Nat → Option (Plonk.EvaluationDomain (ZMod 3)))
        (Plonk.constOps 2) Plonk.Proof.empty (Plonk.trivialPC 1) ⟨1, 1, 1⟩ [] () :=
  ⟨rfl, c9_verify_deterministic ((fun a b => a * b) : ZMod 3 → ZMod 3 → ZMod 3)
    (fun _ => some Plonk.trivialDomain) (Plonk.constOps 2)
    (Plonk.Proof.empty : Plonk.Proof (ZMod 3) (ZMod 3))
    (Plonk.trivialPC 1) ⟨1, 1, 1⟩ [] () () rfl⟩

theorem listToPoly_nil : listToPoly ([] : List F) = 0 := rfl

theorem listToPoly_cons (c : F) (t : List F) :
    listToPoly (c :: t) = Polynomial.C c + Polynomial.X * listToPoly t := rfl

theorem listToPoly_append_single (l : List F) (c : F) :
    listToPoly (l ++ [c]) = listToPoly l + Polynomial.C c * Polynomial.X ^ l.length := by
  induction l with
  | nil => simp [listToPoly_cons, listToPoly_nil]
  | cons a t ih =>
    rw [List.cons_append, listToPoly_cons, ih, listToPoly_cons, List.length_cons]
    ring

theorem powers_of_succ (z : F) (n : Nat) :
    Plonk.powers_of z (n + 1) = 1 :: (Plonk.powers_of z n).map (fun x => z * x) := by
  unfold Plonk.powers_of
  rw [List.range_succ_eq_map]
  simp [List.map_map, Function.comp_def, pow_succ']

theorem zip_map_mul_left (t ps : List F) (z : F) :
    (List.zipWith (fun c pw => pw * c) t (ps.map (fun x => z * x))).sum
      = z * (List.zipWith (fun c pw => pw * c) t ps).sum := by
  induction t generalizing ps with
  | nil => simp
  | cons c ct ih =>
    cases ps with
    | nil => simp
    | cons p pt =>
      simp only [List.map_cons, List.zipWith_cons_cons, List.sum_cons, ih]
      ring

theorem zip_powers_sum (l : List F) (z : F) :
    (List.zipWith (fun c pw => pw * c) l (Plonk.powers_of z l.length)).sum
      = (listToPoly l).eval z := by
  induction l with
  | nil => simp [listToPoly, Plonk.powers_of]
  | cons c t ih =>
    rw [List.length_cons, powers_of_succ]
    simp only [List.zipWith_cons_cons, List.sum_cons, zip_map_mul_left, ih, listToPoly_cons]
    simp

theorem listToPoly_all_zero (l : List F) (h : ∀ c ∈ l, c = 0) : listToPoly l = 0 := by
  induction l with
  | nil => rfl
  | cons c t ih =>
    have hc := h c (by simp)
    have ht : ∀ x ∈ t, x = 0 := fun x hx => h x (by simp [hx])
    simp [listToPoly, hc, ih ht]

/-- The source point evaluation agrees with the Mathlib evaluation of the
denoted polynomial. -/
theorem evaluate_eq_eval (p : Plonk.Polynomial F) (z : F) :
    p.evaluate z = (listToPoly p.coeffs).eval z := by
  unfold Plonk.Polynomial.evaluate
  by_cases h : p.is_zero
  · rw [if_pos h]
    unfold Plonk.Polynomial.is_zero at h
    simp only [Bool.or_eq_true, List.isEmpty_iff, List.all_eq_true, decide_eq_true_eq] at h
    have hz : listToPoly p.coeffs = 0 := by
      rcases h with h | h
      · rw [h]; rfl
      · exact listToPoly_all_zero _ h
    rw [hz]
    simp
  · rw [if_neg h]
    exact zip_powers_sum _ _

theorem listToPoly_dropWhile_zero (r : List F) :
    listToPoly ((r.dropWhile (fun c => decide (c = 0))).reverse) = listToPoly r.reverse := by
  induction r with
  | nil => rfl
  | cons c t ih =>
    rw [List.dropWhile_cons]
    by_cases hc : c = 0
    · rw [if_pos (by simp [hc]), ih]
      simp [List.reverse_cons, listToPoly_append_single, hc]
    · rw [if_neg (by simp [hc])]

/-- Trailing zeros do not change the denoted polynomial. -/
theorem listToPoly_truncate (l : List F) :
    listToPoly (Plonk.truncate_leading_zeros l) = listToPoly l := by
  unfold Plonk.truncate_leading_zeros
  rw [listToPoly_dropWhile_zero, List.reverse_reverse]

theorem getLastD_irrel {α : Type} (l : List α) (h : l ≠ []) (d d' : α) :
    l.getLastD d = l.getLastD d' := by
  cases l with
  | nil => exact absurd rfl h
  | cons a t => rw [List.getLastD_cons, List.getLastD_cons]

theorem ruffiniGo_length (z : F) (L : List F) : ∀ k : F, (Plonk.ruffiniGo z L k).length = L.length := by
  induction L with
  | nil => intro k; rfl
  | cons c rest ih => intro k; simp [Plonk.ruffiniGo, ih]

theorem ruffini_foldl_eq (z : F) (L : List F) : ∀ (acc : List F) (k : F),
    (L.foldl (fun acc coeff => (acc.1 ++ [coeff + acc.2], z * (coeff + acc.2))) (acc, k)).1
      = acc ++ Plonk.ruffiniGo z L k := by
  induction L with
  | nil => intro acc k; simp [Plonk.ruffiniGo]
  | cons c rest ih =>
    intro acc k
    simp only [List.foldl_cons, Plonk.ruffiniGo, ih, List.append_assoc, List.singleton_append]

/-- The synthetic-division invariant: processing the leading-first
coefficients `L` with accumulator `k`, the emitted values split into a
quotient and a final remainder satisfying the division identity. -/
theorem ruffiniGo_identity (z : F) (L : List F) : ∀ k : F, L ≠ [] →
    listToPoly ((Plonk.ruffiniGo z L k).dropLast.reverse) * (Polynomial.X - Polynomial.C z)
        + Polynomial.C ((Plonk.ruffiniGo z L k).getLastD 0)
      = listToPoly L.reverse + Polynomial.C k * Polynomial.X ^ (L.length - 1) := by
  induction L with
  | nil => intro k h; exact absurd rfl h
  | cons c rest ih =>
    intro k _
    cases rest with
    | nil =>
      simp [Plonk.ruffiniGo, listToPoly_cons, listToPoly_nil]
    | cons r rs =>
      have hQ : Plonk.ruffiniGo z (r :: rs) (z * (c + k)) ≠ [] := by
        simp [Plonk.ruffiniGo]
      have hstep : Plonk.ruffiniGo z (c :: r :: rs) k
          = (c + k) :: Plonk.ruffiniGo z (r :: rs) (z * (c + k)) := rfl
      rw [hstep, List.dropLast_cons_of_ne_nil hQ, List.getLastD_cons,
        getLastD_irrel _ hQ (c + k) 0, List.reverse_cons, listToPoly_append_single]
      have hlen : (Plonk.ruffiniGo z (r :: rs) (z * (c + k))).dropLast.reverse.length
          = rs.length := by
        simp [List.length_dropLast, ruffiniGo_length]
      rw [hlen]
      have hih := ih (z * (c + k)) (by simp)
      have hexp : (r :: rs).length - 1 = rs.length := by simp
      rw [hexp] at hih
      calc (listToPoly ((Plonk.ruffiniGo z (r :: rs) (z * (c + k))).dropLast.reverse)
              + Polynomial.C (c + k) * Polynomial.X ^ rs.length)
            * (Polynomial.X - Polynomial.C z)
          + Polynomial.C ((Plonk.ruffiniGo z (r :: rs) (z * (c + k))).getLastD 0)
          = (listToPoly ((Plonk.ruffiniGo z (r :: rs) (z * (c + k))).dropLast.reverse)
              * (Polynomial.X - Polynomial.C z)
            + Polynomial.C ((Plonk.ruffiniGo z (r :: rs) (z * (c + k))).getLastD 0))
            + Polynomial.C (c + k) * Polynomial.X ^ rs.length
              * (Polynomial.X - Polynomial.C z) := by ring
        _ = (listToPoly (r :: rs).reverse
              + Polynomial.C (z * (c + k)) * Polynomial.X ^ rs.length)
            + Polynomial.C (c + k) * Polynomial.X ^ rs.length
              * (Polynomial.X - Polynomial.C z) := by rw [hih]
        _ = listToPoly ((c :: r :: rs).reverse)
            + Polynomial.C k * Polynomial.X ^ ((c :: r :: rs).length - 1) := by
            simp only [List.reverse_cons, listToPoly_append_single, List.length_reverse,
              List.length_cons, List.length_append, List.length_nil, map_mul, map_add,
              Nat.add_sub_cancel, pow_zero, mul_one]
            ring

/-- C7: for every polynomial `p` and scalar `z`, the Ruffini quotient
`q = ruffini(p, z)` satisfies `q·(x − z) + p(z) = p` as a polynomial
identity (stated through the denotation `listToPoly` into Mathlib
polynomials), and `ruffini` of the zero polynomial is the zero
polynomial. -/
theorem c7_ruffini_identity (p : Plonk.Polynomial F) (z : F) :
    (listToPoly (p.ruffini z).coeffs * (Polynomial.X - Polynomial.C z)
        + Polynomial.C (p.evaluate z) = listToPoly p.coeffs)
      ∧ (Plonk.Polynomial.zero F).ruffini z = Plonk.Polynomial.zero F := by
  constructor
  · by_cases hL : p.coeffs = []
    · simp [Plonk.Polynomial.ruffini, hL, Plonk.Polynomial.from_coefficients_vec,
        Plonk.truncate_leading_zeros, Plonk.Polynomial.evaluate, Plonk.Polynomial.is_zero,
        listToPoly]
    · have hrev : p.coeffs.reverse ≠ [] := by simpa using hL
      have hcoeffs : (p.ruffini z).coeffs
          = Plonk.truncate_leading_zeros
              ((Plonk.ruffiniGo z p.coeffs.reverse 0).dropLast.reverse) := by
        simp only [Plonk.Polynomial.ruffini, Plonk.Polynomial.from_coefficients_vec]
        rw [ruffini_foldl_eq, List.nil_append]
      rw [hcoeffs, listToPoly_truncate]
      have hid := ruffiniGo_identity z p.coeffs.reverse 0 hrev
      rw [List.reverse_reverse, map_zero, zero_mul, add_zero] at hid
      have heval : (Plonk.ruffiniGo z p.coeffs.reverse 0).getLastD 0 = p.evaluate z := by
        have hev := congrArg (Polynomial.eval z) hid
        simp only [Polynomial.eval_add, Polynomial.eval_mul, Polynomial.eval_sub,
          Polynomial.eval_X, Polynomial.eval_C, sub_self, mul_zero, zero_add] at hev
        rw [evaluate_eq_eval]
        exact hev
      rw [← heval]
      exact hid
  · rfl

theorem canonicalB_iff (l : List F) :
    Plonk.canonicalB l = true ↔ ∀ c, l.getLast? = some c → c ≠ 0 := by
  unfold Plonk.canonicalB
  cases h : l.getLast? with
  | none => simp
  | some c => simp

theorem dropWhile_zero_head (r : List F) :
    ∀ x, (r.dropWhile (fun c => decide (c = 0))).head? = some x → x ≠ 0 := by
  induction r with
  | nil => intro x hx; simp at hx
  | cons a t ih =>
    intro x hx
    rw [List.dropWhile_cons] at hx
    by_cases ha : a = 0
    · rw [if_pos (by simp [ha])] at hx
      exact ih x hx
    · rw [if_neg (by simp [ha])] at hx
      simp only [List.head?_cons, Option.some.injEq] at hx
      rw [← hx]
      exact ha

/-- `truncate_leading_zeros` always returns a canonical vector. -/
theorem canonicalB_truncate (l : List F) :
    Plonk.canonicalB (Plonk.truncate_leading_zeros l) = true := by
  rw [canonicalB_iff]
  intro c hc
  unfold Plonk.truncate_leading_zeros at hc
  rw [List.getLast?_reverse] at hc
  exact dropWhile_zero_head l.reverse c hc

theorem canonicalB_add (p q : Plonk.Polynomial F) :
    Plonk.canonicalB (p.add q).coeffs = true := by
  simp only [Plonk.Polynomial.add]
  exact canonicalB_truncate _

theorem canonicalB_sub (p q : Plonk.Polynomial F) :
    Plonk.canonicalB (p.sub q).coeffs = true := by
  simp only [Plonk.Polynomial.sub]
  exact canonicalB_truncate _

theorem canonicalB_neg (p : Plonk.Polynomial F)
    (hp : Plonk.canonicalB p.coeffs = true) :
    Plonk.canonicalB p.neg.coeffs = true := by
  simp only [Plonk.Polynomial.neg]
  rw [canonicalB_iff] at hp ⊢
  intro c hc
  rw [List.getLast?_map] at hc
  rcases Option.map_eq_some'.mp hc with ⟨a, ha, hac⟩
  rw [← hac]
  exact neg_ne_zero.mpr (hp a ha)

theorem canonicalB_mul (p q : Plonk.Polynomial F) :
    Plonk.canonicalB (p.mul q).coeffs = true := by
  simp only [Plonk.Polynomial.mul]
  by_cases h : (p.is_zero || q.is_zero : Bool)
  · rw [if_pos h]; rfl
  · rw [if_neg h]
    simp only [Plonk.Polynomial.from_coefficients_vec]
    exact canonicalB_truncate _

theorem canonicalB_scalar_mul (p : Plonk.Polynomial F) (c : F) :
    Plonk.canonicalB (p.scalar_mul c).coeffs = true := by
  simp only [Plonk.Polynomial.scalar_mul]
  by_cases h : (p.is_zero || decide (c = 0) : Bool)
  · rw [if_pos h]; rfl
  · rw [if_neg h]
    simp only [Plonk.Polynomial.from_coefficients_vec]
    exact canonicalB_truncate _

theorem canonicalB_scalar_add (p : Plonk.Polynomial F) (c : F)
    (hp : Plonk.canonicalB p.coeffs = true) (hne : p.coeffs ≠ [-c]) :
    Plonk.canonicalB (p.scalar_add c).coeffs = true := by
  simp only [Plonk.Polynomial.scalar_add]
  by_cases h0 : p.is_zero
  · rw [if_pos h0]
    simp only [Plonk.Polynomial.from_coefficients_vec]
    exact canonicalB_truncate _
  · rw [if_neg h0]
    by_cases hc : c = 0
    · rw [if_pos (by simp [hc])]
      exact hp
    · rw [if_neg (by simp [hc])]
      obtain ⟨a, t, hat⟩ : ∃ a t, p.coeffs = a :: t := by
        cases hpc : p.coeffs with
        | nil => exact absurd (by simp [Plonk.Polynomial.is_zero, hpc]) h0
        | cons a t => exact ⟨a, t, rfl⟩
      rw [hat, List.set_cons_zero, List.headD_cons]
      cases t with
      | nil =>
        rw [hat] at hne
        rw [canonicalB_iff]
        intro x hx
        simp only [List.getLast?_singleton, Option.some.injEq] at hx
        rw [← hx]
        intro hzero
        exact hne (by rw [eq_neg_of_add_eq_zero_left hzero])
      | cons b t2 =>
        rw [canonicalB_iff] at hp ⊢
        intro x hx
        apply hp
        rw [hat, List.getLast?_cons_cons]
        rw [List.getLast?_cons_cons] at hx
        exact hx

theorem canonicalB_scalar_sub (p : Plonk.Polynomial F) (c : F)
    (hp : Plonk.canonicalB p.coeffs = true) (hne : p.coeffs ≠ [c]) :
    Plonk.canonicalB (p.scalar_sub c).coeffs = true := by
  unfold Plonk.Polynomial.scalar_sub
  apply canonicalB_scalar_add p (-c) hp
  simpa using hne

/-- C8 counterexample: over `ZMod 3` the canonical degree-0 polynomial `[1]`
plus the scalar `2 = −1` (the source `Add<&Scalar>` impl) yields the
coefficient vector `[0]`, which has a trailing zero coefficient. -/
theorem c8_counterexample :
    Plonk.canonicalB [(1 : ZMod 3)] = true
      ∧ (Plonk.Polynomial.scalar_add ⟨[(1 : ZMod 3)]⟩ 2).coeffs = [0]
      ∧ Plonk.canonicalB (Plonk.Polynomial.scalar_add ⟨[(1 : ZMod 3)]⟩ 2).coeffs = false := by
  decide

/-- C8 (amended): add, sub, neg, polynomial multiplication and scalar
multiplication of canonical inputs always produce canonical results; scalar
add and scalar sub skip re-canonicalisation, and produce canonical results
for canonical inputs except when the input is a degree-0 polynomial whose
only coefficient is cancelled by the scalar (`p = [−c]` for `p + c`,
`p = [c]` for `p − c`), in which case the result is the non-canonical
`[0]`. -/
theorem c8_canonical_ops (p q : Plonk.Polynomial F) (c : F)
    (hp : Plonk.canonicalB p.coeffs = true) (hq : Plonk.canonicalB q.coeffs = true)
    (h1 : p.coeffs ≠ [-c]) (h2 : p.coeffs ≠ [c]) :
    Plonk.canonicalB (p.add q).coeffs = true
      ∧ Plonk.canonicalB (p.sub q).coeffs = true
      ∧ Plonk.canonicalB p.neg.coeffs = true
      ∧ Plonk.canonicalB (p.mul q).coeffs = true
      ∧ Plonk.canonicalB (p.scalar_mul c).coeffs = true
      ∧ Plonk.canonicalB (p.scalar_add c).coeffs = true
      ∧ Plonk.canonicalB (p.scalar_sub c).coeffs = true :=
  ⟨canonicalB_add p q, canonicalB_sub p q, canonicalB_neg p hp, canonicalB_mul p q,
   canonicalB_scalar_mul p c, canonicalB_scalar_add p c hp h1,
   canonicalB_scalar_sub p c hp h2⟩

/-- Witness for the amended C8 at `p = [1, 1]`, `q = [1]`, `c = 1` over
`ZMod 3`. -/
theorem c8_canonical_ops_witness :
    (Plonk.canonicalB [(1 : ZMod 3), 1] = true ∧ Plonk.canonicalB [(1 : ZMod 3)] = true
        ∧ [(1 : ZMod 3), 1] ≠ [-1] ∧ [(1 : ZMod 3), 1] ≠ [1])
      ∧ (Plonk.canonicalB ((Plonk.Polynomial.mk [(1 : ZMod 3), 1]).add ⟨[1]⟩).coeffs = true
      ∧ Plonk.canonicalB ((Plonk.Polynomial.mk [(1 : ZMod 3), 1]).sub ⟨[1]⟩).coeffs = true
      ∧ Plonk.canonicalB (Plonk.Polynomial.mk [(1 : ZMod 3), 1]).neg.coeffs = true
      ∧ Plonk.canonicalB ((Plonk.Polynomial.mk [(1 : ZMod 3), 1]).mul ⟨[1]⟩).coeffs = true
      ∧ Plonk.canonicalB ((Plonk.Polynomial.mk [(1 : ZMod 3), 1]).scalar_mul 1).coeffs = true
      ∧ Plonk.canonicalB ((Plonk.Polynomial.mk [(1 : ZMod 3), 1]).scalar_add 1).coeffs = true
      ∧ Plonk.canonicalB ((Plonk.Polynomial.mk [(1 : ZMod 3), 1]).scalar_sub 1).coeffs = true) :=
  ⟨⟨by decide, by decide, by decide, by decide⟩,
    c8_canonical_ops (Plonk.Polynomial.mk [(1 : ZMod 3), 1]) ⟨[1]⟩ 1
      (by decide) (by decide) (by decide) (by decide)⟩

/-- C10: for every nonzero constant polynomial `[c]` and every scalar `z`,
`ruffini` returns the zero polynomial — the single coefficient is consumed
as the discarded remainder. -/
theorem c10_ruffini_constant (c : F) (hc : c ≠ 0) (z : F) :
    Plonk.Polynomial.ruffini ⟨[c]⟩ z = Plonk.Polynomial.zero F :=
  rfl

/-- C6 (amended): when the preprocessed circuit's size is not a supported
power of two, the (spec-modelled) domain construction fails, and `verify`
panics — aborting with no boolean result and no surfaced error value —
because the source unwraps the domain construction. -/
theorem c6_invalid_circuit_size (e : G → G₂ → GT)
    (mk : Nat → Plonk.EvaluationDomain F) (ops : Plonk.TranscriptOps σ F G)
    (proof : Plonk.Proof F G) (pc : Plonk.PreProcessedCircuit F G)
    (vk : Plonk.VerifierKey G G₂) (pub_inputs : List F) (s : σ)
    (h : Plonk.supported_circuit_size pc.n = false) :
    Plonk.Proof.verify e (Plonk.EvaluationDomain.new_checked mk) ops proof pc vk
      pub_inputs s = none := by
  simp [Plonk.Proof.verify, Plonk.EvaluationDomain.new_checked, h]

/-- C6 counterexample: at circuit size 3 — not a power of two — the
(spec-modelled) domain construction fails and the concrete verifier call
aborts (`none`): no error value distinct from the boolean verification
result is surfaced, because the call does not return at all. -/
theorem c6_counterexample :
    Plonk.supported_circuit_size 3 = false
      ∧ Plonk.Proof.verify ((fun a b => a * b) : ZMod 3 → ZMod 3 → ZMod 3)
          ((Plonk.EvaluationDomain.new_checked (fun _ => Plonk.trivialDomain)) :
            Nat → Option (Plonk.EvaluationDomain (ZMod 3)))
          (Plonk.constOps 2) Plonk.Proof.empty (Plonk.trivialPC 3) ⟨1, 1, 1⟩ [] ()
        = none := by
  constructor
  · decide
  · decide

/-- Witness for the amended C6: a failing domain construction at size 3
makes the verifier abort. -/
theorem c6_invalid_circuit_size_witness :
    Plonk.supported_circuit_size (Plonk.trivialPC (F := ZMod 3) (G := ZMod 3) 3).n = false
      ∧ Plonk.Proof.verify ((fun a b => a * b) : ZMod 3 → ZMod 3 → ZMod 3)
          ((Plonk.EvaluationDomain.new_checked (fun _ => Plonk.trivialDomain)) :
            Nat → Option (Plonk.EvaluationDomain (ZMod 3)))
          (Plonk.constOps 1) Plonk.Proof.empty (Plonk.trivialPC 3) ⟨1, 1, 1⟩ [] ()
        = none :=
  ⟨by decide,
    c6_invalid_circuit_size ((fun a b => a * b) : ZMod 3 → ZMod 3 → ZMod 3)
      ((fun _ => Plonk.trivialDomain) : Nat → Plonk.EvaluationDomain (ZMod 3))
      (Plonk.constOps 1) Plonk.Proof.empty
      (Plonk.trivialPC 3) ⟨1, 1, 1⟩ [] () (by decide)⟩

/-- C5 (amended): whenever the vanishing polynomial evaluates to zero at the
drawn evaluation challenge (`z_challenge ∈ H`), `verify` panics — it returns
no boolean at all (the source unwraps the failed inversion), rather than
short-circuiting to `false`. -/
theorem c5_zero_division (e : G → G₂ → GT)
    (new_domain : Nat → Option (Plonk.EvaluationDomain F))
    (ops : Plonk.TranscriptOps σ F G) (proof : Plonk.Proof F G)
    (pc : Plonk.PreProcessedCircuit F G) (vk : Plonk.VerifierKey G G₂)
    (pub_inputs : List F) (s : σ) (domain : Plonk.EvaluationDomain F)
    (hd : new_domain pc.n = some domain)
    (hz : domain.evaluate_vanishing_polynomial
        (Plonk.verifyPrelude ops proof s).z_challenge = 0) :
    Plonk.Proof.verify e new_domain ops proof pc vk pub_inputs s = none := by
  simp only [Plonk.verifyPrelude] at hz
  simp only [Plonk.Proof.verify, hd]
  rw [hz]
  split
  · rfl
  · simp [Plonk.Proof.compute_quotient_evaluation, Plonk.invert]

/-- C5 counterexample: with circuit size 1 and a transcript whose challenges
are all `1`, the drawn `z_challenge` is `1` and the vanishing evaluation is
`1^1 − 1 = 0`; the concrete verifier call aborts (`none`) — in particular it
does not return the boolean `false`. -/
theorem c5_counterexample :
    (Plonk.trivialDomain : Plonk.EvaluationDomain (ZMod 3)).evaluate_vanishing_polynomial
        (Plonk.verifyPrelude (Plonk.constOps 1)
          (Plonk.Proof.empty : Plonk.Proof (ZMod 3) (ZMod 3)) ()).z_challenge = 0
      ∧ Plonk.Proof.verify ((fun a b => a * b) : ZMod 3 → ZMod 3 → ZMod 3)
          ((fun _ => some Plonk.trivialDomain) : Nat → Option (Plonk.EvaluationDomain (ZMod 3)))
          (Plonk.constOps 1) Plonk.Proof.empty (Plonk.trivialPC 1) ⟨1, 1, 1⟩ [] () = none
      ∧ Plonk.Proof.verify ((fun a b => a * b) : ZMod 3 → ZMod 3 → ZMod 3)
          ((fun _ => some Plonk.trivialDomain) : Nat → Option (Plonk.EvaluationDomain (ZMod 3)))
          (Plonk.constOps 1) Plonk.Proof.empty (Plonk.trivialPC 1) ⟨1, 1, 1⟩ [] ()
        ≠ some (false, ()) := by
  refine ⟨by decide, ?_, ?_⟩ <;> decide

/-- Witness for the amended C5 at the concrete inputs of the
counterexample's shape (distinct transcript constant). -/
theorem c5_zero_division_witness :
    ((fun _ => some Plonk.trivialDomain) : Nat → Option (Plonk.EvaluationDomain (ZMod 3)))
        (Plonk.trivialPC (F := ZMod 3) (G := ZMod 3) 1).n = some Plonk.trivialDomain
      ∧ (Plonk.trivialDomain : Plonk.EvaluationDomain (ZMod 3)).evaluate_vanishing_polynomial
          (Plonk.verifyPrelude (Plonk.constOps 4)
            (Plonk.Proof.empty : Plonk.Proof (ZMod 3) (ZMod 3)) ()).z_challenge = 0
      ∧ Plonk.Proof.verify ((fun a b => a * b) : ZMod 3 → ZMod 3 → ZMod 3)
          ((fun _ => some Plonk.trivialDomain) : Nat → Option (Plonk.EvaluationDomain (ZMod 3)))
          (Plonk.constOps 4) Plonk.Proof.empty (Plonk.trivialPC 1) ⟨1, 1, 1⟩ [] () = none :=
  ⟨rfl, by decide,
    c5_zero_division ((fun a b => a * b) : ZMod 3 → ZMod 3 → ZMod 3)
      (fun _ => some Plonk.trivialDomain) (Plonk.constOps 4) Plonk.Proof.empty
      (Plonk.trivialPC 1) ⟨1, 1, 1⟩ [] () Plonk.trivialDomain rfl (by decide)⟩

/-- C4: during a completing run of verification the transcript receives
exactly the sequence of spec section 4.2.1, in order — the three witness
commitments under `w_l`, `w_r`, `w_o`; the `beta` draw immediately followed
by the re-append of the drawn `β` under `beta`; the `gamma` draw; `z_comm`
and the `alpha` draw; the three quotient commitments and the `z` draw; the
eight evaluation appends (`a_eval` … `r_eval`, including the derived
`t_eval`); the `v` draw; the two opening commitments; the `u` draw — and no
other transcript operation, stated over the free recording transcript
`recordOps` for an arbitrary challenge function. -/
theorem c4_transcript_sequence (chalF : List (Plonk.TEvent F G) → F)
    (e : G → G₂ → GT) (new_domain : Nat → Option (Plonk.EvaluationDomain F))
    (proof : Plonk.Proof F G) (pc : Plonk.PreProcessedCircuit F G)
    (vk : Plonk.VerifierKey G G₂) (pub_inputs : List F)
    (s0 : List (Plonk.TEvent F G)) (domain : Plonk.EvaluationDomain F)
    (hd : new_domain pc.n = some domain) (l1_eval t_eval : F)
    (hl1 : (domain.evaluate_all_lagrange_coefficients
        (Plonk.verifyPrelude (Plonk.recordOps chalF) proof s0).z_challenge).head?
      = some l1_eval)
    (ht : proof.compute_quotient_evaluation
        ((Plonk.Polynomial.from_coefficients_vec (domain.ifft pub_inputs)).evaluate
          (Plonk.verifyPrelude (Plonk.recordOps chalF) proof s0).z_challenge)
        (Plonk.verifyPrelude (Plonk.recordOps chalF) proof s0).alpha
        (Plonk.verifyPrelude (Plonk.recordOps chalF) proof s0).beta
        (Plonk.verifyPrelude (Plonk.recordOps chalF) proof s0).gamma
        l1_eval
        (domain.evaluate_vanishing_polynomial
          (Plonk.verifyPrelude (Plonk.recordOps chalF) proof s0).z_challenge)
        proof.evaluations.perm_eval = some t_eval) :
    (Plonk.Proof.verify e new_domain (Plonk.recordOps chalF) proof pc vk
        pub_inputs s0).map Prod.snd
      = some (s0 ++
        [Plonk.TEvent.comm "w_l" proof.a_comm,
         Plonk.TEvent.comm "w_r" proof.b_comm,
         Plonk.TEvent.comm "w_o" proof.c_comm,
         Plonk.TEvent.chal "beta",
         Plonk.TEvent.scalar "beta" (Plonk.verifyPrelude (Plonk.recordOps chalF) proof s0).beta,
         Plonk.TEvent.chal "gamma",
         Plonk.TEvent.comm "z" proof.z_comm,
         Plonk.TEvent.chal "alpha",
         Plonk.TEvent.comm "t_lo" proof.t_lo_comm,
         Plonk.TEvent.comm "t_mid" proof.t_mid_comm,
         Plonk.TEvent.comm "t_hi" proof.t_hi_comm,
         Plonk.TEvent.chal "z",
         Plonk.TEvent.scalar "a_eval" proof.evaluations.a_eval,
         Plonk.TEvent.scalar "b_eval" proof.evaluations.b_eval,
         Plonk.TEvent.scalar "c_eval" proof.evaluations.c_eval,
         Plonk.TEvent.scalar "left_sig_eval" proof.evaluations.left_sigma_eval,
         Plonk.TEvent.scalar "right_sig_eval" proof.evaluations.right_sigma_eval,
         Plonk.TEvent.scalar "perm_eval" proof.evaluations.perm_eval,
         Plonk.TEvent.scalar "t_eval" t_eval,
         Plonk.TEvent.scalar "r_eval" proof.evaluations.lin_poly_eval,
         Plonk.TEvent.chal "v",
         Plonk.TEvent.comm "w_z" proof.w_z_comm,
         Plonk.TEvent.comm "w_z_w" proof.w_zw_comm,
         Plonk.TEvent.chal "u"]) := by
  simp only [Plonk.verifyPrelude, Plonk.recordOps] at hl1 ht ⊢
  simp only [Plonk.Proof.verify, Plonk.recordOps, hd, hl1, ht]
  simp [List.append_assoc]

/-- Witness for C4 at a concrete instantiation over `ZMod 3` (constant
challenge `2`, circuit size 1, empty proof). -/
theorem c4_transcript_sequence_witness :
    ((((fun _ => some Plonk.trivialDomain) :
          Nat → Option (Plonk.EvaluationDomain (ZMod 3)))
        (Plonk.trivialPC (F := ZMod 3) (G := ZMod 3) 1).n = some Plonk.trivialDomain)
      ∧ ((Plonk.trivialDomain.evaluate_all_lagrange_coefficients
          (Plonk.verifyPrelude (Plonk.recordOps (fun _ => (2 : ZMod 3)))
            (Plonk.Proof.empty : Plonk.Proof (ZMod 3) (ZMod 3)) []).z_challenge).head?
        = some 0))
    ∧ (Plonk.Proof.verify ((fun a b => a * b) : ZMod 3 → ZMod 3 → ZMod 3)
        ((fun _ => some Plonk.trivialDomain) :
          Nat → Option (Plonk.EvaluationDomain (ZMod 3)))
        (Plonk.recordOps (fun _ => (2 : ZMod 3)))
        (Plonk.Proof.empty : Plonk.Proof (ZMod 3) (ZMod 3))
        (Plonk.trivialPC 1) ⟨1, 1, 1⟩ [] []).map Prod.snd
      = some ([] ++
        [Plonk.TEvent.comm "w_l" 0, Plonk.TEvent.comm "w_r" 0,
         Plonk.TEvent.comm "w_o" 0, Plonk.TEvent.chal "beta",
         Plonk.TEvent.scalar "beta" 2, Plonk.TEvent.chal "gamma",
         Plonk.TEvent.comm "z" 0, Plonk.TEvent.chal "alpha",
         Plonk.TEvent.comm "t_lo" 0, Plonk.TEvent.comm "t_mid" 0,
         Plonk.TEvent.comm "t_hi" 0, Plonk.TEvent.chal "z",
         Plonk.TEvent.scalar "a_eval" 0, Plonk.TEvent.scalar "b_eval" 0,
         Plonk.TEvent.scalar "c_eval" 0, Plonk.TEvent.scalar "left_sig_eval" 0,
         Plonk.TEvent.scalar "right_sig_eval" 0, Plonk.TEvent.scalar "perm_eval" 0,
         Plonk.TEvent.scalar "t_eval" (0 * (1 : ZMod 3)⁻¹),
         Plonk.TEvent.scalar "r_eval" 0,
         Plonk.TEvent.chal "v", Plonk.TEvent.comm "w_z" 0,
         Plonk.TEvent.comm "w_z_w" 0, Plonk.TEvent.chal "u"]) :=
  ⟨⟨rfl, by decide⟩,
    c4_transcript_sequence (fun _ => (2 : ZMod 3))
      ((fun a b => a * b) : ZMod 3 → ZMod 3 → ZMod 3)
      (fun _ => some Plonk.trivialDomain) Plonk.Proof.empty (Plonk.trivialPC 1)
      ⟨1, 1, 1⟩ [] [] Plonk.trivialDomain rfl 0 (0 * (1 : ZMod 3)⁻¹)
      (by decide) rfl⟩

/-- Witness for C10 at `c = 1`, `z = 2` over `ZMod 3`. -/
theorem c10_ruffini_constant_witness :
    ((1 : ZMod 3) ≠ 0) ∧
    Plonk.Polynomial.ruffini ⟨[(1 : ZMod 3)]⟩ 2 = Plonk.Polynomial.zero (ZMod 3) :=
  ⟨by decide, c10_ruffini_constant 1 (by decide) 2⟩

end Theorems
